import Mathlib

/-!
Shallow embedding of the edgerouter repository's routing decision engine.

Two implementations from the source are modelled:
* namespace `GPT` — the TypeScript `GPTRouter` class in `src/src/index.ts`
  (providers, sensitivity detection, budget filter, strategy selection,
  budget-period reset, metrics updates).
* namespace `ER` — the JavaScript `EdgeRouter` class in `src/unnamed/part_001`
  (sensitivity detection, strategy dispatch, per-provider budget check with
  cheaper-alternative rerouting, health-check failure counting, analytics).

JavaScript regular expressions are embedded as decidable scanners over
`List Char`; `Array.prototype.sort` with a numeric comparator is embedded as
the stable `List.insertionSort` on the weak order the comparator induces.
-/

/-- Privacy class of a provider: `'cloud' | 'local'`. -/
inductive Privacy
  | cloud
  | local
deriving DecidableEq

/-- Health status of a provider: `'healthy' | 'unhealthy'`. -/
inductive HStatus
  | healthy
  | unhealthy
deriving DecidableEq

/-- ASCII lower-casing, as the `i` regex flag behaves on ASCII letters. -/
def lcase (c : Char) : Char :=
  if 'A' ≤ c ∧ c ≤ 'Z' then Char.ofNat (c.toNat + 32) else c

/-- Regex `\w`: ASCII letter, digit or underscore. -/
def isWordCh (c : Char) : Bool :=
  c.isAlphanum || c == '_'

/-- Regex `\s` restricted to ASCII whitespace. -/
def isWsCh (c : Char) : Bool :=
  c == ' ' || c == '\t' || c == '\n' || c == '\r' || c == '\x0b' || c == '\x0c'

/-- Case-insensitive: does `s` start with the literal `pat`? -/
def ciStarts : List Char → List Char → Bool
  | [], _ => true
  | _ :: _, [] => false
  | p :: ps, c :: cs => lcase c == lcase p && ciStarts ps cs

/-- Case-sensitive: does `s` start with the literal `pat`? -/
def csStarts : List Char → List Char → Bool
  | [], _ => true
  | _ :: _, [] => false
  | p :: ps, c :: cs => c == p && csStarts ps cs

/-- Case-insensitively drop the literal `pat` from the front of `s`. -/
def dropCI : List Char → List Char → Option (List Char)
  | [], s => some s
  | _ :: _, [] => none
  | p :: ps, c :: cs => if lcase c == lcase p then dropCI ps cs else none

/-- Does some suffix of `s` satisfy the prefix matcher `p`?
(The scan a regex without anchors performs.) -/
def hasSub (p : List Char → Bool) : List Char → Bool
  | [] => p []
  | c :: cs => p (c :: cs) || hasSub p cs

/-- Like `hasSub` but the matcher also sees the character preceding the
match position, as needed for the `\b` word-boundary assertion. -/
def scanPos (f : Option Char → List Char → Bool) (prev : Option Char) : List Char → Bool
  | [] => f prev []
  | c :: cs => f prev (c :: cs) || scanPos f (some c) cs

/-- Case-insensitive substring test for a literal pattern. -/
def litCI (pat : String) (s : List Char) : Bool :=
  hasSub (ciStarts pat.toList) s

/-- Case-sensitive substring test for a literal pattern. -/
def litCS (pat : String) (s : List Char) : Bool :=
  hasSub (csStarts pat.toList) s

/-- Consume exactly `n` ASCII digits. -/
def dropDigits : Nat → List Char → Option (List Char)
  | 0, s => some s
  | _ + 1, [] => none
  | n + 1, c :: cs => if c.isDigit then dropDigits n cs else none

/-- No word character follows (right-hand `\b` after a digit). -/
def endBoundary : List Char → Bool
  | [] => true
  | c :: _ => !isWordCh c

/-- Matcher for `/\b\d{3}-\d{2}-\d{4}\b/` at one position. -/
def ssnAt (prev : Option Char) (s : List Char) : Bool :=
  (match prev with | some c => !isWordCh c | none => true) &&
  (match dropDigits 3 s with
   | some ('-' :: r1) =>
     (match dropDigits 2 r1 with
      | some ('-' :: r2) =>
        (match dropDigits 4 r2 with
         | some rest => endBoundary rest
         | none => false)
      | _ => false)
   | _ => false)

/-- The SSN pattern `/\b\d{3}-\d{2}-\d{4}\b/`. -/
def ssnPat (s : List Char) : Bool :=
  scanPos ssnAt none s

/-- Consume an optional `[\s-]` separator (the regex `[\s-]?`; consuming it
when present is equivalent to the backtracking search because the following
`\d` cannot match a separator character). -/
def sepOpt : List Char → List Char
  | [] => []
  | c :: cs => if isWsCh c || c == '-' then cs else c :: cs

/-- Matcher for `/\b\d{4}[\s-]?\d{4}[\s-]?\d{4}[\s-]?\d{4}\b/` at one position. -/
def ccAt (prev : Option Char) (s : List Char) : Bool :=
  (match prev with | some c => !isWordCh c | none => true) &&
  (match dropDigits 4 s with
   | some r1 =>
     (match dropDigits 4 (sepOpt r1) with
      | some r2 =>
        (match dropDigits 4 (sepOpt r2) with
         | some r3 =>
           (match dropDigits 4 (sepOpt r3) with
            | some rest => endBoundary rest
            | none => false)
         | none => false)
      | none => false)
   | none => false)

/-- The credit-card pattern. -/
def ccPat (s : List Char) : Bool :=
  scanPos ccAt none s

/-- The pattern `/api[_-]?key/i`. -/
def apiKeyPat (s : List Char) : Bool :=
  hasSub (fun t =>
    match dropCI "api".toList t with
    | some r =>
      ciStarts "key".toList r ||
      (match r with
       | c :: r2 => (c == '_' || c == '-') && ciStarts "key".toList r2
       | [] => false)
    | none => false) s

/-- The pattern `/secret[_-]?key/i`. -/
def secretKeyPat (s : List Char) : Bool :=
  hasSub (fun t =>
    match dropCI "secret".toList t with
    | some r =>
      ciStarts "key".toList r ||
      (match r with
       | c :: r2 => (c == '_' || c == '-') && ciStarts "key".toList r2
       | [] => false)
    | none => false) s

/-- Association-list read, first entry wins (JavaScript `Map.get` /
object property lookup). -/
def getEntry? {α : Type} (k : String) : List (String × α) → Option α
  | [] => none
  | (k', v) :: rest => if k' = k then some v else getEntry? k rest

/-- Association-list write: overwrite the existing entry for `k`, else
append (JavaScript `Map.set` / object property assignment). -/
def setEntry {α : Type} (k : String) (v : α) : List (String × α) → List (String × α)
  | [] => [(k, v)]
  | (k', v') :: rest =>
    if k' = k then (k, v) :: rest else (k', v') :: setEntry k v rest

/-- JavaScript's stable `Array.prototype.sort` with comparator
`(a, b) => key a - key b`: the stable sort in the weak order induced by
`key`, ascending. -/
def jsSortBy {α : Type} (key : α → ℚ) (l : List α) : List α :=
  l.insertionSort (fun a b => key a ≤ key b)

namespace GPT

/-- The `Provider` record of `src/src/index.ts` (fields used by the routing logic). -/
structure Provider where
  name : String
  cost : ℚ
  latency : ℚ
  available : Bool
  reliability : Option ℚ
  privacy : Option Privacy
deriving DecidableEq

/-- The `Message` record of `src/src/index.ts`. -/
structure Message where
  role : String
  content : String
deriving DecidableEq

/-- The `ChatRequest` record of `src/src/index.ts` (fields used by the routing logic). -/
structure ChatRequest where
  messages : List Message
deriving DecidableEq

/-- The `Strategy` union of `src/src/index.ts`. -/
inductive Strategy
  | cheapest
  | fastest
  | balanced
  | privacyFirst
  | reliability
deriving DecidableEq

/-- The string value of each `Strategy` member. -/
def strategyName : Strategy → String
  | .cheapest => "cheapest"
  | .fastest => "fastest"
  | .balanced => "balanced"
  | .privacyFirst => "privacy-first"
  | .reliability => "reliability"

/-- A JavaScript `Date`, restricted to the accessors the router calls:
`getDate()` (day of month), `getMonth()`, plus the year to distinguish
wall-clock days the code itself does not distinguish. -/
structure Date where
  day : Nat
  month : Nat
  year : Nat
deriving DecidableEq

/-- Mutable state of a `GPTRouter` instance (fields used by the routing
logic; `dailyBudget = none` models the `Infinity` default). -/
structure RouterState where
  providers : List Provider
  strategy : Strategy
  dailyBudget : Option ℚ
  spending : List (String × ℚ)
  requestCount : Nat
  totalTokens : Nat
  requestsByProvider : List (String × Nat)
  latencies : List ℚ
  dailySpent : ℚ
  monthlySpent : ℚ
  lastResetDate : Date
deriving DecidableEq

/-- The `RoutingInfo` record of `src/src/index.ts`. -/
structure RoutingInfo where
  provider : String
  cost : ℚ
  latency : ℚ
  reason : String
deriving DecidableEq

/-- Function `detectSensitive` (`src/src/index.ts` lines 228-243): any message
whose content matches any of the eight patterns. -/
def detectSensitive (messages : List Message) : Bool :=
  messages.any fun m =>
    let s := m.content.toList
    apiKeyPat s ||
    secretKeyPat s ||
    -- /bearer\s+[A-Za-z0-9-._~+/]+=*/i
    hasSub (fun t =>
      match dropCI "bearer".toList t with
      | some (c :: r) =>
        isWsCh c &&
        (match r.dropWhile isWsCh with
         | d :: _ => d.isAlphanum || d == '-' || d == '.' || d == '_' ||
                     d == '~' || d == '+' || d == '/'
         | [] => false)
      | _ => false) s ||
    -- /password[:=]\s*\S+/i
    hasSub (fun t =>
      match dropCI "password".toList t with
      | some (c :: r) =>
        (c == ':' || c == '=') &&
        (match r.dropWhile isWsCh with
         | d :: _ => !isWsCh d
         | [] => false)
      | _ => false) s ||
    ssnPat s ||
    ccPat s ||
    -- /patient|medical|diagnosis|prescription/i
    (litCI "patient" s || litCI "medical" s || litCI "diagnosis" s ||
     litCI "prescription" s) ||
    -- /salary|income|ssn|social.?security/i
    (litCI "salary" s || litCI "income" s || litCI "ssn" s ||
     hasSub (fun t =>
       match dropCI "social".toList t with
       | some r =>
         ciStarts "security".toList r ||
         (match r with
          | c :: r2 => c != '\n' && c != '\r' && ciStarts "security".toList r2
          | [] => false)
       | none => false) s)

/-- Function `estimateTokens`: sum of message content lengths, about 4
characters per token (`Math.ceil(totalChars / 4)`). -/
def estimateTokens (messages : List Message) : Nat :=
  let totalChars : Nat := messages.foldl (fun sum msg => sum + msg.content.length) 0
  (Int.ceil ((totalChars : ℚ) / 4)).toNat

/-- Function `filterByBudget`: keeps providers whose estimated cost for a
fixed 500-token request still fits the daily budget. -/
def filterByBudget (st : RouterState) (providers : List Provider) : List Provider :=
  providers.filter fun p =>
    match st.dailyBudget with
    | none => true
    | some b => decide (st.dailySpent + p.cost * 500 / 1000 ≤ b)

/-- The default `p.reliability || 0.95` — JavaScript `||` also replaces a
present 0. -/
def jsOrQ (x : Option ℚ) (d : ℚ) : ℚ :=
  match x with
  | some v => if v = 0 then d else v
  | none => d

/-- Key for the `balanced` comparator: `0.5*(cost/0.015) + 0.5*(latency/200)`. -/
def keyBalanced (p : Provider) : ℚ :=
  (p.cost / (0.015 : ℚ)) * (0.5 : ℚ) + (p.latency / 200) * (0.5 : ℚ)

/-- Rank used by the `privacy-first` comparator: `local` sorts before the rest. -/
def privRank (p : Provider) : ℚ :=
  if p.privacy = some Privacy.local then 0 else 1

/-- Order induced by the `privacy-first` comparator: rank first, cost second. -/
def lePrivacy (a b : Provider) : Prop :=
  privRank a < privRank b ∨ (privRank a = privRank b ∧ a.cost ≤ b.cost)

instance : DecidableRel lePrivacy := fun a b => by
  unfold lePrivacy
  infer_instance

/-- The `switch (this.strategy)` body of `selectProvider`: sort the pool by
the strategy's comparator and take the first element. -/
def byStrategy (strat : Strategy) (pool : List Provider) : Option Provider :=
  match strat with
  | .cheapest => (jsSortBy (fun p => p.cost) pool).head?
  | .fastest => (jsSortBy (fun p => p.latency) pool).head?
  | .balanced => (jsSortBy keyBalanced pool).head?
  | .privacyFirst => (pool.insertionSort lePrivacy).head?
  | .reliability => (jsSortBy (fun p => -(jsOrQ p.reliability (0.95 : ℚ))) pool).head?

/-- Function `selectProvider` (`src/src/index.ts` lines 259-306). On a sensitive
request it first returns the registry provider named `"local"` if available,
then the first pool provider with `privacy === 'local'`, and only then falls
through to the strategy switch. -/
def selectProvider (registry : List Provider) (strat : Strategy)
    (pool : List Provider) (sensitive : Bool) : Option Provider :=
  if sensitive then
    match registry.find? (fun p => p.name == "local") with
    | some lp =>
      if lp.available then some lp
      else
        match pool.filter (fun p => p.privacy == some Privacy.local) with
        | q :: _ => some q
        | [] => byStrategy strat pool
    | none =>
      match pool.filter (fun p => p.privacy == some Privacy.local) with
      | q :: _ => some q
      | [] => byStrategy strat pool
  else byStrategy strat pool

/-- The metric/budget updates and routing metadata of `makeRequest`
(`src/src/index.ts` lines 308-355). `elapsed` is the measured wall-clock
latency `Date.now() - startTime`, an input of the environment. -/
def makeRequest (elapsed : ℚ) (st : RouterState) (p : Provider)
    (req : ChatRequest) : RoutingInfo × RouterState :=
  let tokens := estimateTokens req.messages
  let cost := p.cost * (tokens : ℚ) / 1000
  let st' : RouterState :=
    { st with
      requestCount := st.requestCount + 1
      totalTokens := st.totalTokens + tokens
      requestsByProvider :=
        setEntry p.name ((getEntry? p.name st.requestsByProvider).getD 0 + 1)
          st.requestsByProvider
      spending :=
        setEntry p.name ((getEntry? p.name st.spending).getD 0 + cost) st.spending
      dailySpent := st.dailySpent + cost
      monthlySpent := st.monthlySpent + cost
      latencies := st.latencies ++ [elapsed] }
  ({ provider := p.name, cost := cost, latency := elapsed,
     reason := strategyName st.strategy }, st')

/-- Function `checkBudgetReset` (`src/src/index.ts` lines 363-376): compares
`getDate()` (day of month) and, against the possibly already-updated
`lastResetDate`, `getMonth()`. -/
def checkBudgetReset (now : Date) (st : RouterState) : RouterState :=
  let st1 :=
    if now.day ≠ st.lastResetDate.day then
      { st with dailySpent := 0, lastResetDate := now }
    else st
  if now.month ≠ st1.lastResetDate.month then
    { st1 with monthlySpent := 0 }
  else st1

/-- Function `route` (`src/src/index.ts` lines 197-226): reset budget period,
detect
sensitivity, keep available providers (error if none), filter by budget with
fallback to all available, select, then perform the request. `none` models
the thrown `No available providers` error. -/
def route (now : Date) (elapsed : ℚ) (st : RouterState) (req : ChatRequest) :
    Option (RoutingInfo × RouterState) :=
  let st' := checkBudgetReset now st
  let sensitive := detectSensitive req.messages
  let available := st'.providers.filter (fun p => p.available)
  if available = [] then none
  else
    let withinBudget := filterByBudget st' available
    match selectProvider st'.providers st'.strategy
        (if withinBudget.length > 0 then withinBudget else available) sensitive with
    | some p => some (makeRequest elapsed st' p req)
    | none => none

end GPT

namespace ER

/-- The provider record of `src/unnamed/part_001` (fields used by the routing
logic; the `endpoint` URL is configuration the engine never reads). -/
structure Prov where
  cost : ℚ
  latency : ℚ
  reliability : ℚ
  privacy : Privacy
  status : HStatus
deriving DecidableEq

/-- A message as `EdgeRouter` reads it: only `content`, possibly absent. -/
structure Msg where
  role : String
  content : Option String
deriving DecidableEq

/-- A request as `EdgeRouter.route` destructures it. `messages = none`
models a missing or non-array `messages` field. -/
structure Request where
  messages : Option (List Msg)
deriving DecidableEq

/-- The errors `EdgeRouter` throws. `gasExhausted` is an artefact of the
fuelled embedding of the recursive `routeToProvider` and is never reached
with the fuel `route` supplies. -/
inductive RouteError
  | invalidRequest
  | unknownStrategy
  | unknownProvider
  | gasExhausted
deriving DecidableEq

/-- The `routing` metadata attached to a response. -/
structure Routing where
  provider : String
  reason : String
  cost : ℚ
  latency : ℚ
deriving DecidableEq

/-- A budget alert `{type, provider, timestamp}` (the spec calls the first
field `kind`). -/
structure Alert where
  kind : String
  provider : String
  timestamp : ℚ
deriving DecidableEq

/-- Mutable state of an `EdgeRouter` instance (fields used by the logic). -/
structure State where
  providers : List (String × Prov)
  strategy : String
  dailyLimit : ℚ
  spent : List (String × ℚ)
  alerts : List Alert
  failures : List (String × Nat)
  lastCheck : List (String × ℚ)
  threshold : Nat
  reqCounts : List (String × Nat)
  costs : List (String × ℚ)
  startTime : ℚ
deriving DecidableEq

/-- Function `containsSensitive` (`src/unnamed/part_001` lines 128-152)
applied to a single message: `String(msg.content || '')` tested against the
fifteen patterns. -/
def msgSensitive (m : Msg) : Bool :=
  let s := (m.content.getD "").toList
  apiKeyPat s ||
  litCS "sk_live_" s ||
  litCS "pk_live_" s ||
  litCS "sk_test_" s ||
  -- /bearer\s+/i
  hasSub (fun t =>
    match dropCI "bearer".toList t with
    | some (c :: _) => isWsCh c
    | _ => false) s ||
  litCI "password" s ||
  litCI "secret" s ||
  litCI "token" s ||
  ssnPat s ||
  ccPat s ||
  litCI "private" s ||
  litCI "confidential" s ||
  litCI "medical" s ||
  -- /health\s+record/i
  hasSub (fun t =>
    match dropCI "health".toList t with
    | some (c :: r) => isWsCh c && ciStarts "record".toList (r.dropWhile isWsCh)
    | _ => false) s ||
  litCI "patient" s

/-- Function `containsSensitive`: some message matches some pattern. -/
def containsSensitive (messages : List Msg) : Bool :=
  messages.any msgSensitive

/-- Function `estimateTokens` (`src/unnamed/part_001` lines 157-160):
`messages.map(m => m.content).join(' ')` (absent content joins as the empty
string), then `Math.ceil(length / 4)`. -/
def estimateTokens (messages : List Msg) : Nat :=
  let text := String.intercalate " " (messages.map fun m => m.content.getD "")
  (Int.ceil ((text.length : ℚ) / 4)).toNat

/-- Function `getHealthyProviders`: names of registered providers whose
status is `'healthy'`, in registration order. -/
def healthy (st : State) : List String :=
  (st.providers.map Prod.fst).filter fun n =>
    match getEntry? n st.providers with
    | some p => p.status == HStatus.healthy
    | none => false

/-- Lookup `this.providers[name].cost`; registered names are always present,
an absent name contributes 0. -/
def provCost (st : State) (n : String) : ℚ :=
  match getEntry? n st.providers with
  | some p => p.cost
  | none => 0

/-- Lookup `this.providers[name].latency` with the same convention. -/
def provLatency (st : State) (n : String) : ℚ :=
  match getEntry? n st.providers with
  | some p => p.latency
  | none => 0

/-- Lookup `this.providers[name].reliability` with the same convention. -/
def provReliability (st : State) (n : String) : ℚ :=
  match getEntry? n st.providers with
  | some p => p.reliability
  | none => 0

/-- Function `routeToCheapest`: healthy names sorted by provider cost, first
one. -/
def routeToCheapest (st : State) : Option String :=
  (jsSortBy (provCost st) (healthy st)).head?

/-- Function `routeToFastest`: healthy names sorted by provider latency,
first one. -/
def routeToFastest (st : State) : Option String :=
  (jsSortBy (provLatency st) (healthy st)).head?

/-- Function `routeBalanced`: score `cost * 100 + latency`, ascending. -/
def routeBalanced (st : State) : Option String :=
  (jsSortBy (fun n => provCost st n * 100 + provLatency st n) (healthy st)).head?

/-- Function `routePrivacyFirst`: first healthy provider with
`privacy === 'local'`, else fall back to `routeToCheapest`. -/
def routePrivacyFirst (st : State) : Option String :=
  match (healthy st).filter (fun n =>
      match getEntry? n st.providers with
      | some p => p.privacy == Privacy.local
      | none => false) with
  | n :: _ => some n
  | [] => routeToCheapest st

/-- Function `routeReliability`: descending reliability (embedded as
ascending negated key). -/
def routeReliability (st : State) : Option String :=
  (jsSortBy (fun n => -(provReliability st n)) (healthy st)).head?

/-- The `this.strategies` name-to-function table. `none` means the strategy
name is unknown; the inner option is the possibly-undefined provider name a
strategy returns on an empty healthy set. -/
def runStrategy (st : State) : Option (Option String) :=
  if st.strategy = "cheapest" then some (routeToCheapest st)
  else if st.strategy = "fastest" then some (routeToFastest st)
  else if st.strategy = "balanced" then some (routeBalanced st)
  else if st.strategy = "privacy-first" then some (routePrivacyFirst st)
  else if st.strategy = "reliability" then some (routeReliability st)
  else none

/-- Function `checkBudget` (`src/unnamed/part_001` lines 298-309): compares the
provider's own cumulative spend plus the new cost against the daily limit;
on failure appends a `daily_budget_exceeded` alert stamped `Date.now()`. -/
def checkBudget (now : ℚ) (st : State) (provider : String) (cost : ℚ) :
    Bool × State :=
  let dailySpent := (getEntry? provider st.spent).getD 0
  if dailySpent + cost > st.dailyLimit then
    (false,
     { st with alerts :=
        st.alerts ++ [{ kind := "daily_budget_exceeded", provider := provider,
                        timestamp := now }] })
  else (true, st)

/-- Function `findCheaperAlternative`: cheapest healthy provider strictly
cheaper than the current one, else the current one. -/
def findCheaperAlternative (st : State) (current : String) : String :=
  let alts := jsSortBy (provCost st)
    ((healthy st).filter fun n => provCost st n < provCost st current)
  alts.head?.getD current

/-- Function `trackRequest`: bump the request count, the analytics cost and
the budget spend of `provider`. -/
def trackRequest (st : State) (provider : String) (cost : ℚ) : State :=
  { st with
    reqCounts :=
      setEntry provider ((getEntry? provider st.reqCounts).getD 0 + 1) st.reqCounts
    costs :=
      setEntry provider ((getEntry? provider st.costs).getD 0 + cost) st.costs
    spent :=
      setEntry provider ((getEntry? provider st.spent).getD 0 + cost) st.spent }

/-- Function `routeToProvider` (`src/unnamed/part_001` lines 254-293). The
source
recurses on a strictly cheaper alternative when the budget check fails;
`gas` bounds that recursion (each step strictly lowers the provider cost,
so `providers.length + 1` steps always suffice). The canned mock response
body is omitted; the `routing` metadata and state updates are kept. -/
def routeToProvider (gas : Nat) (now : ℚ) (st : State) (providerName : String)
    (msgs : List Msg) (reason : String) : Except RouteError (Routing × State) :=
  match gas with
  | 0 => .error .gasExhausted
  | gas + 1 =>
    match getEntry? providerName st.providers with
    | none => .error .unknownProvider
    | some provider =>
      let tokens := estimateTokens msgs
      let estimatedCost := (tokens : ℚ) * provider.cost / 1000
      let checked := checkBudget now st providerName estimatedCost
      let st1 := checked.2
      if checked.1 = false then
        let alternative := findCheaperAlternative st1 providerName
        if alternative ≠ providerName then
          routeToProvider gas now st1 alternative msgs "budget_exceeded"
        else
          let st2 := trackRequest st1 providerName estimatedCost
          .ok ({ provider := providerName, reason := reason,
                 cost := estimatedCost, latency := provider.latency }, st2)
      else
        let st2 := trackRequest st1 providerName estimatedCost
        .ok ({ provider := providerName, reason := reason,
               cost := estimatedCost, latency := provider.latency }, st2)

/-- Function `route` (`src/unnamed/part_001` lines 165-188): validate
`messages`,
force `local` with reason `sensitive_content` on sensitive content, else
dispatch on the configured strategy. -/
def route (now : ℚ) (st : State) (req : Request) :
    Except RouteError (Routing × State) :=
  match req.messages with
  | none => .error .invalidRequest
  | some msgs =>
    if containsSensitive msgs then
      routeToProvider (st.providers.length + 1) now st "local" msgs
        "sensitive_content"
    else
      match runStrategy st with
      | none => .error .unknownStrategy
      | some none => .error .unknownProvider
      | some (some provider) =>
        routeToProvider (st.providers.length + 1) now st provider msgs
          st.strategy

/-- In-place update of one provider's status. -/
def updStatus (name : String) (s : HStatus) (provs : List (String × Prov)) :
    List (String × Prov) :=
  provs.map fun e => if e.1 = name then (e.1, { e.2 with status := s }) else e

/-- Function `checkProviderHealth` (`src/unnamed/part_001` lines 387-408) for
one
probe outcome `isHealthy`: on failure increment the consecutive-failure
count and mark unhealthy when the pre-increment count has reached the
threshold; on success reset the count and mark healthy. -/
def checkProviderHealth (provider : String) (isHealthy : Bool) (now : ℚ)
    (st : State) : State :=
  let st1 :=
    if isHealthy = false then
      let failures := (getEntry? provider st.failures).getD 0
      let st' := { st with failures := setEntry provider (failures + 1) st.failures }
      if failures ≥ st.threshold then
        { st' with providers := updStatus provider HStatus.unhealthy st'.providers }
      else st'
    else
      { st with
        failures := setEntry provider 0 st.failures
        providers := updStatus provider HStatus.healthy st.providers }
  { st1 with lastCheck := setEntry provider now st1.lastCheck }

/-- Apply `n` consecutive failed probes of `provider`. -/
def iterFail (provider : String) (now : ℚ) : Nat → State → State
  | 0, st => st
  | n + 1, st => iterFail provider now n (checkProviderHealth provider false now st)

/-- The status the registry records for a provider. -/
def statusOf (st : State) (n : String) : Option HStatus :=
  (getEntry? n st.providers).map fun p => p.status

/-- The `budgetStatus` part of the analytics summary. -/
structure BudgetStatus where
  limit : ℚ
  spent : ℚ
  alerts : List Alert
deriving DecidableEq

/-- The summary object `getAnalytics` returns
(`src/unnamed/part_001` lines 413-439). -/
structure Analytics where
  totalRequests : Nat
  totalCost : ℚ
  uptime : ℚ
  requestsByProvider : List (String × Nat)
  costsByProvider : List (String × ℚ)
  healthStatus : List (String × HStatus)
  budgetStatus : BudgetStatus
deriving DecidableEq

/-- Function `getAnalytics`: folds over the current state; `uptime` is
`Date.now() - startTime`. -/
def getAnalytics (now : ℚ) (st : State) : Analytics :=
  { totalRequests := st.reqCounts.foldl (fun a e => a + e.2) 0
    totalCost := st.costs.foldl (fun a e => a + e.2) 0
    uptime := now - st.startTime
    requestsByProvider := st.reqCounts
    costsByProvider := st.costs
    healthStatus := st.providers.map fun e => (e.1, e.2.status)
    budgetStatus :=
      { limit := st.dailyLimit
        spent := st.spent.foldl (fun a e => a + e.2) 0
        alerts := st.alerts } }

/-- Everything `getAnalytics` returns except the `uptime` field. -/
def analyticsCore (a : Analytics) :
    Nat × ℚ × List (String × Nat) × List (String × ℚ) ×
      List (String × HStatus) × BudgetStatus :=
  (a.totalRequests, a.totalCost, a.requestsByProvider, a.costsByProvider,
   a.healthStatus, a.budgetStatus)

/-- The default provider registry built by the `EdgeRouter` constructor
(`src/unnamed/part_001` lines 9-58), in object-key order. -/
def defaultProviders : List (String × Prov) :=
  [("cloudflare", { cost := 0.001, latency := 50, reliability := 0.99,
                    privacy := .cloud, status := .healthy }),
   ("openai", { cost := 0.015, latency := 200, reliability := 0.995,
                privacy := .cloud, status := .healthy }),
   ("anthropic", { cost := 0.012, latency := 180, reliability := 0.99,
                   privacy := .cloud, status := .healthy }),
   ("local", { cost := 0, latency := 100, reliability := 1,
               privacy := .local, status := .healthy }),
   ("groq", { cost := 0.0001, latency := 30, reliability := 0.95,
              privacy := .cloud, status := .healthy }),
   ("together", { cost := 0.002, latency := 60, reliability := 0.97,
                  privacy := .cloud, status := .healthy })]

/-- A freshly constructed `EdgeRouter` with `strategy: 'cheapest'` and the
constructor's default budget limit and health threshold, started at time 0. -/
def erBase : State :=
  { providers := defaultProviders
    strategy := "cheapest"
    dailyLimit := 10
    spent := defaultProviders.map fun e => (e.1, 0)
    alerts := []
    failures := []
    lastCheck := []
    threshold := 3
    reqCounts := []
    costs := []
    startTime := 0 }

end ER

attribute [local semireducible] Rat.ofScientific Rat.mul Rat.inv Rat.add Rat.sub

instance {ε α : Type} [DecidableEq ε] [DecidableEq α] : DecidableEq (Except ε α) := fun x y =>
  match x, y with
  | .ok a, .ok b =>
    if h : a = b then isTrue (by rw [h]) else isFalse (fun he => h (Except.ok.inj he))
  | .error a, .error b =>
    if h : a = b then isTrue (by rw [h]) else isFalse (fun he => h (Except.error.inj he))
  | .ok _, .error _ => isFalse (fun he => Except.noConfusion he)
  | .error _, .ok _ => isFalse (fun he => Except.noConfusion he)

theorem sortHeadMem {α : Type} {r : α → α → Prop} [DecidableRel r]
    {l : List α} {p : α} (h : (l.insertionSort r).head? = some p) : p ∈ l := by
  cases hs : l.insertionSort r with
  | nil => rw [hs] at h; simp at h
  | cons a t =>
    rw [hs] at h
    have hpa : p = a := by simpa using h.symm
    subst hpa
    have hmem : p ∈ l.insertionSort r := by
      rw [hs]; exact List.mem_cons_self _ _
    exact (List.mem_insertionSort r).mp hmem

theorem jsSortBy_head_min {α : Type} {key : α → ℚ} {l : List α} {p : α}
    (h : (jsSortBy key l).head? = some p) : ∀ q ∈ l, key p ≤ key q := by
  intro q hq
  haveI ht : IsTotal α (fun a b => key a ≤ key b) := ⟨fun a b => le_total (key a) (key b)⟩
  haveI htr : IsTrans α (fun a b => key a ≤ key b) := ⟨fun a b c h1 h2 => le_trans h1 h2⟩
  have hsorted := List.sorted_insertionSort (fun a b => key a ≤ key b) l
  have hqs : q ∈ l.insertionSort (fun a b => key a ≤ key b) :=
    (List.mem_insertionSort _).mpr hq
  unfold jsSortBy at h
  cases hs : l.insertionSort (fun a b => key a ≤ key b) with
  | nil => rw [hs] at h; simp at h
  | cons a t =>
    rw [hs] at h hqs hsorted
    have hpa : p = a := by simpa using h.symm
    subst hpa
    rcases List.mem_cons.mp hqs with rfl | hqt
    · exact le_refl _
    · exact List.rel_of_sorted_cons hsorted q hqt

theorem sortHeadIsSome {α : Type} {r : α → α → Prop} [DecidableRel r]
    {l : List α} (h : l ≠ []) : ((l.insertionSort r).head?).isSome = true := by
  cases hs : l.insertionSort r with
  | nil =>
    exfalso
    have hl := List.length_insertionSort r l
    rw [hs] at hl
    exact h (List.length_eq_zero.mp hl.symm)
  | cons a t => rfl

theorem byStrategy_mem {strat : GPT.Strategy} {pool : List GPT.Provider} {p : GPT.Provider}
    (h : GPT.byStrategy strat pool = some p) : p ∈ pool := by
  cases strat <;> exact sortHeadMem h

theorem byStrategy_isSome {strat : GPT.Strategy} {pool : List GPT.Provider}
    (h : pool ≠ []) : (GPT.byStrategy strat pool).isSome = true := by
  cases strat <;> exact sortHeadIsSome h

theorem filterLocalMatch_mem {pool : List GPT.Provider} {strat : GPT.Strategy} {p : GPT.Provider}
    (h : (match pool.filter (fun x => x.privacy == some Privacy.local) with
          | q :: _ => some q
          | [] => GPT.byStrategy strat pool) = some p) : p ∈ pool := by
  cases hfil : pool.filter (fun x => x.privacy == some Privacy.local) with
  | nil => rw [hfil] at h; exact byStrategy_mem h
  | cons q t =>
    rw [hfil] at h
    have hqp : q = p := by simpa using h
    subst hqp
    have hq : q ∈ pool.filter (fun x => x.privacy == some Privacy.local) := by
      rw [hfil]; exact List.mem_cons_self _ _
    exact List.mem_of_mem_filter hq

theorem selectProvider_mem {registry : List GPT.Provider} {strat : GPT.Strategy}
    {pool : List GPT.Provider} {sens : Bool} {p : GPT.Provider}
    (h : GPT.selectProvider registry strat pool sens = some p) :
    p ∈ pool ∨ (p ∈ registry ∧ p.available = true) := by
  cases sens with
  | false => exact Or.inl (byStrategy_mem h)
  | true =>
    unfold GPT.selectProvider at h
    simp only [if_true] at h
    cases hfind : registry.find? (fun x => x.name == "local") with
    | none =>
      rw [hfind] at h
      exact Or.inl (filterLocalMatch_mem h)
    | some lp =>
      rw [hfind] at h
      have h2 : (if lp.available = true then some lp
          else match pool.filter (fun x => x.privacy == some Privacy.local) with
            | q :: _ => some q
            | [] => GPT.byStrategy strat pool) = some p := h
      cases hav : lp.available with
      | true =>
        rw [hav] at h2
        simp only [if_pos] at h2
        have hlp : lp = p := by simpa using h2
        subst hlp
        exact Or.inr ⟨List.mem_of_find?_eq_some hfind, hav⟩
      | false =>
        rw [hav] at h2
        simp only [Bool.false_eq_true, if_false] at h2
        exact Or.inl (filterLocalMatch_mem h2)

theorem filterLocalMatch_isSome {pool : List GPT.Provider} {strat : GPT.Strategy}
    (h : pool ≠ []) :
    (Option.isSome
      (match pool.filter (fun x => x.privacy == some Privacy.local) with
       | q :: _ => some q
       | [] => GPT.byStrategy strat pool)) = true := by
  cases hfil : pool.filter (fun x => x.privacy == some Privacy.local) with
  | nil => exact byStrategy_isSome h
  | cons q t => rfl

theorem selectProvider_isSome {registry : List GPT.Provider} {strat : GPT.Strategy}
    {pool : List GPT.Provider} {sens : Bool} (h : pool ≠ []) :
    (GPT.selectProvider registry strat pool sens).isSome = true := by
  cases sens with
  | false => exact byStrategy_isSome h
  | true =>
    unfold GPT.selectProvider
    simp only [if_true]
    cases hfind : registry.find? (fun x => x.name == "local") with
    | none => exact filterLocalMatch_isSome h
    | some lp =>
      cases hav : lp.available with
      | true => simp [hav]
      | false => simp only [hav, Bool.false_eq_true, if_false]; exact filterLocalMatch_isSome h

theorem checkBudgetReset_eq (now : GPT.Date) (st : GPT.RouterState) :
    GPT.checkBudgetReset now st =
      { st with
        dailySpent := if now.day = st.lastResetDate.day then st.dailySpent else 0
        monthlySpent :=
          if now.day = st.lastResetDate.day ∧ now.month ≠ st.lastResetDate.month
          then 0 else st.monthlySpent
        lastResetDate :=
          if now.day = st.lastResetDate.day then st.lastResetDate else now } := by
  unfold GPT.checkBudgetReset
  by_cases h1 : now.day = st.lastResetDate.day <;>
    by_cases h2 : now.month = st.lastResetDate.month <;>
    simp [h1, h2]

theorem checkBudgetReset_providers (now : GPT.Date) (st : GPT.RouterState) :
    (GPT.checkBudgetReset now st).providers = st.providers := by
  rw [checkBudgetReset_eq]

theorem checkBudgetReset_strategy (now : GPT.Date) (st : GPT.RouterState) :
    (GPT.checkBudgetReset now st).strategy = st.strategy := by
  rw [checkBudgetReset_eq]

theorem route_some_spec {now : GPT.Date} {elapsed : ℚ} {st : GPT.RouterState}
    {req : GPT.ChatRequest} {r : GPT.RoutingInfo × GPT.RouterState}
    (h : GPT.route now elapsed st req = some r) :
    ∃ p, p ∈ st.providers ∧ p.available = true ∧
      r = GPT.makeRequest elapsed (GPT.checkBudgetReset now st) p req := by
  unfold GPT.route at h
  simp only [] at h
  split at h
  · exact absurd h (by simp)
  · next hne =>
    split at h
    · next p hsel =>
      have hr : r = GPT.makeRequest elapsed (GPT.checkBudgetReset now st) p req := by
        simpa using h.symm
      have hmem := selectProvider_mem hsel
      have hprov := checkBudgetReset_providers now st
      have hpav : p ∈ st.providers ∧ p.available = true := by
        rcases hmem with hpool | ⟨hreg, hav⟩
        · have hp2 : p ∈ (GPT.checkBudgetReset now st).providers.filter
              (fun x => x.available) := by
            by_cases hc : 0 < (GPT.filterByBudget (GPT.checkBudgetReset now st)
                ((GPT.checkBudgetReset now st).providers.filter (fun x => x.available))).length
            · rw [if_pos hc] at hpool
              exact List.mem_of_mem_filter hpool
            · rw [if_neg hc] at hpool
              exact hpool
          have hsplit := List.mem_filter.mp hp2
          rw [hprov] at hsplit
          exact ⟨hsplit.1, hsplit.2⟩
        · rw [hprov] at hreg
          exact ⟨hreg, hav⟩
      exact ⟨p, hpav.1, hpav.2, hr⟩
    · exact absurd h (by simp)

theorem route_isSome {now : GPT.Date} {elapsed : ℚ} {st : GPT.RouterState}
    {req : GPT.ChatRequest}
    (h : (GPT.checkBudgetReset now st).providers.filter (fun x => x.available) ≠ []) :
    (GPT.route now elapsed st req).isSome = true := by
  unfold GPT.route
  simp only []
  split
  · next heq => exact absurd heq h
  · next hne =>
    have hpool : (if 0 < (GPT.filterByBudget (GPT.checkBudgetReset now st)
        ((GPT.checkBudgetReset now st).providers.filter (fun x => x.available))).length
      then GPT.filterByBudget (GPT.checkBudgetReset now st)
        ((GPT.checkBudgetReset now st).providers.filter (fun x => x.available))
      else (GPT.checkBudgetReset now st).providers.filter (fun x => x.available)) ≠ [] := by
      by_cases hc : 0 < (GPT.filterByBudget (GPT.checkBudgetReset now st)
          ((GPT.checkBudgetReset now st).providers.filter (fun x => x.available))).length
      · rw [if_pos hc]
        intro hnil
        rw [hnil] at hc
        exact absurd hc (by simp)
      · rw [if_neg hc]
        exact h
    have hsel := @selectProvider_isSome (GPT.checkBudgetReset now st).providers
      (GPT.checkBudgetReset now st).strategy _ (GPT.detectSensitive req.messages) hpool
    split
    · rfl
    · next hnone =>
      rw [Option.isSome_iff_exists] at hsel
      obtain ⟨q, hq⟩ := hsel
      rw [hnone] at hq
      exact absurd hq (by simp)

theorem makeRequest_reason (elapsed : ℚ) (st : GPT.RouterState) (p : GPT.Provider)
    (req : GPT.ChatRequest) :
    (GPT.makeRequest elapsed st p req).1.reason = GPT.strategyName st.strategy := rfl

theorem makeRequest_provider (elapsed : ℚ) (st : GPT.RouterState) (p : GPT.Provider)
    (req : GPT.ChatRequest) :
    (GPT.makeRequest elapsed st p req).1.provider = p.name := rfl

theorem makeRequest_cost (elapsed : ℚ) (st : GPT.RouterState) (p : GPT.Provider)
    (req : GPT.ChatRequest) :
    (GPT.makeRequest elapsed st p req).1.cost =
      p.cost * (GPT.estimateTokens req.messages : ℚ) / 1000 := rfl

theorem strategyName_ne_budget (s : GPT.Strategy) :
    GPT.strategyName s ≠ "budget_exceeded" := by
  cases s <;> decide

theorem routeToProvider_ne_invalid (gas : Nat) :
    ∀ (now : ℚ) (st : ER.State) (name : String) (msgs : List ER.Msg) (reason : String),
      ER.routeToProvider gas now st name msgs reason ≠
        Except.error ER.RouteError.invalidRequest := by
  induction gas with
  | zero =>
    intro now st name msgs reason h
    simp [ER.routeToProvider] at h
  | succ gas ih =>
    intro now st name msgs reason h
    unfold ER.routeToProvider at h
    simp only [] at h
    split at h
    · simp at h
    · split at h
      · split at h
        · exact ih _ _ _ _ _ h
        · simp at h
      · simp at h

theorem msgSensitive_none (m : ER.Msg) (hm : m.content = none) :
    ER.msgSensitive m = false := by
  unfold ER.msgSensitive
  rw [hm]
  rfl

theorem containsSensitive_cons (m : ER.Msg) (t : List ER.Msg) :
    ER.containsSensitive (m :: t) =
      (ER.msgSensitive m || ER.containsSensitive t) := rfl

theorem containsSensitive_filter (msgs : List ER.Msg) :
    ER.containsSensitive msgs =
      ER.containsSensitive (msgs.filter (fun m => m.content.isSome)) := by
  induction msgs with
  | nil => rfl
  | cons m t ih =>
    cases hm : m.content with
    | some s =>
      have hf : (m :: t).filter (fun x => x.content.isSome) =
          m :: t.filter (fun x => x.content.isSome) := by
        simp [List.filter_cons, hm]
      rw [containsSensitive_cons, hf, containsSensitive_cons, ih]
    | none =>
      have hf : (m :: t).filter (fun x => x.content.isSome) =
          t.filter (fun x => x.content.isSome) := by
        simp [List.filter_cons, hm]
      rw [containsSensitive_cons, hf, msgSensitive_none m hm, ih]
      simp

def pOpen : GPT.Provider :=
  { name := "openai", cost := 0.015, latency := 200, available := true,
    reliability := some 0.99, privacy := some Privacy.cloud }

def pCheap : GPT.Provider :=
  { name := "groq", cost := 0.001, latency := 30, available := true,
    reliability := some 0.93, privacy := some Privacy.cloud }

def pLocalCloud : GPT.Provider :=
  { name := "local", cost := 0, latency := 100, available := true,
    reliability := some 1, privacy := some Privacy.cloud }

def pHub : GPT.Provider :=
  { name := "hub", cost := 1, latency := 50, available := true,
    reliability := none, privacy := some Privacy.local }

def pLocalTrue : GPT.Provider :=
  { name := "local", cost := 0, latency := 100, available := true,
    reliability := some 1, privacy := some Privacy.local }

def dateJan1 : GPT.Date := { day := 1, month := 0, year := 2025 }

def reqHi : GPT.ChatRequest := { messages := [{ role := "user", content := "hi" }] }

def stC2 : GPT.RouterState :=
  { providers := [pOpen], strategy := GPT.Strategy.cheapest,
    dailyBudget := some 0.0001, spending := [("openai", 0)], requestCount := 0,
    totalTokens := 0, requestsByProvider := [("openai", 0)], latencies := [],
    dailySpent := 1, monthlySpent := 0, lastResetDate := dateJan1 }

def stC7 : GPT.RouterState :=
  { stC2 with dailyBudget := some 0.001, dailySpent := 0 }

def stC8a : GPT.RouterState :=
  { stC2 with
    dailySpent := 5, monthlySpent := 7,
    lastResetDate := { day := 15, month := 0, year := 2025 } }

def stC8b : GPT.RouterState :=
  { stC2 with
    dailySpent := 5, monthlySpent := 7,
    lastResetDate := { day := 31, month := 0, year := 2025 } }

/-- Following the specification's words ("Estimate tokens from message
content length; compute `estimatedCost` per healthy candidate", then
`withinBudget = filter(healthyCandidates, c => Budget.fits(c, estimatedCost(c)))`):
budget eligibility evaluated against the per-request, per-candidate
estimate. Declared only to compare the spec's description with the
`filterByBudget` the source implements. -/
def specBudgetFilter (st : GPT.RouterState) (tokens : Nat)
    (ps : List GPT.Provider) : List GPT.Provider :=
  ps.filter fun p =>
    match st.dailyBudget with
    | none => true
    | some b => decide (st.dailySpent + p.cost * (tokens : ℚ) / 1000 ≤ b)

/-- C1 (counterexample): the claim "whenever the candidate set contains a
healthy provider with `privacyClass == local`, `selectProvider` on a
sensitive request returns a provider with `privacyClass == local`" is false
as stated: with the registry's `"local"`-named provider overridden to
`privacy: 'cloud'` (an override `initializeProviders` supports), the
sensitive branch returns that provider by name even though the pool holds a
healthy `privacyClass == local` provider. -/
theorem sensitive_select_claim_cx :
    (∃ p ∈ ([pLocalCloud, pHub] : List GPT.Provider),
        p.available = true ∧ p.privacy = some Privacy.local) ∧
    GPT.selectProvider [pLocalCloud] GPT.Strategy.cheapest [pLocalCloud, pHub] true =
      some pLocalCloud ∧
    pLocalCloud.privacy ≠ some Privacy.local := by decide

/-- C1 (amended): if additionally every registry provider named `"local"`
has `privacyClass == local` (true of the default registry), then a sensitive
request whose candidate pool holds a healthy local-class provider is always
answered with a `privacyClass == local` provider, regardless of strategy. -/
theorem sensitive_select_local_thm (registry : List GPT.Provider)
    (strat : GPT.Strategy) (pool : List GPT.Provider)
    (hreg : ∀ p ∈ registry, p.name = "local" → p.privacy = some Privacy.local)
    (hpool : ∃ p ∈ pool, p.available = true ∧ p.privacy = some Privacy.local) :
    ∀ q, GPT.selectProvider registry strat pool true = some q →
      q.privacy = some Privacy.local := by
  intro q hq
  unfold GPT.selectProvider at hq
  simp only [if_true] at hq
  cases hfind : registry.find? (fun x => x.name == "local") with
  | none =>
    rw [hfind] at hq
    obtain ⟨p, hp, hav, hpriv⟩ := hpool
    have hpf : p ∈ pool.filter (fun x => x.privacy == some Privacy.local) :=
      List.mem_filter.mpr ⟨hp, by simp [hpriv]⟩
    cases hfil : pool.filter (fun x => x.privacy == some Privacy.local) with
    | nil => rw [hfil] at hpf; cases hpf
    | cons a t =>
      rw [hfil] at hq
      have haq : a = q := by simpa using hq
      subst haq
      have ha : a ∈ pool.filter (fun x => x.privacy == some Privacy.local) := by
        rw [hfil]; exact List.mem_cons_self _ _
      have := List.of_mem_filter ha
      simpa using this
  | some lp =>
    rw [hfind] at hq
    have h2 : (if lp.available = true then some lp
        else match pool.filter (fun x => x.privacy == some Privacy.local) with
          | a :: _ => some a
          | [] => GPT.byStrategy strat pool) = some q := hq
    have hlpname : lp.name = "local" := by
      have := List.find?_some hfind
      simpa using this
    cases hav : lp.available with
    | true =>
      rw [hav] at h2
      simp only [if_pos] at h2
      have hlq : lp = q := by simpa using h2
      subst hlq
      exact hreg lp (List.mem_of_find?_eq_some hfind) hlpname
    | false =>
      rw [hav] at h2
      simp only [Bool.false_eq_true, if_false] at h2
      obtain ⟨p, hp, hav2, hpriv⟩ := hpool
      have hpf : p ∈ pool.filter (fun x => x.privacy == some Privacy.local) :=
        List.mem_filter.mpr ⟨hp, by simp [hpriv]⟩
      cases hfil : pool.filter (fun x => x.privacy == some Privacy.local) with
      | nil => rw [hfil] at hpf; cases hpf
      | cons a t =>
        rw [hfil] at h2
        have haq : a = q := by simpa using h2
        subst haq
        have ha : a ∈ pool.filter (fun x => x.privacy == some Privacy.local) := by
          rw [hfil]; exact List.mem_cons_self _ _
        have := List.of_mem_filter ha
        simpa using this

/-- C1 (witness): the amended theorem applied to the default-shaped
registry whose `"local"` provider really is local. -/
theorem sensitive_select_local_witness :
    GPT.selectProvider [pLocalTrue] GPT.Strategy.cheapest [pLocalTrue] true =
      some pLocalTrue ∧
    pLocalTrue.privacy = some Privacy.local :=
  ⟨by decide,
   sensitive_select_local_thm [pLocalTrue] GPT.Strategy.cheapest [pLocalTrue]
     (by decide) (by decide) pLocalTrue (by decide)⟩

/-- C2 (counterexample): with every healthy candidate over budget
(`filterByBudget` returns `[]`), `route` still returns a decision, but its
reason code is the strategy name `"cheapest"`, not `"budget_exceeded"` —
`makeRequest` always stamps `reason: this.strategy`. -/
theorem budget_reason_claim_cx :
    GPT.filterByBudget (GPT.checkBudgetReset dateJan1 stC2)
      ((GPT.checkBudgetReset dateJan1 stC2).providers.filter
        (fun p => p.available)) = [] ∧
    (GPT.route dateJan1 200 stC2 reqHi).map (fun r => r.1.reason) =
      some "cheapest" ∧
    (GPT.route dateJan1 200 stC2 reqHi).map (fun r => r.1.reason) ≠
      some "budget_exceeded" := by decide

/-- C2 (amended): when every healthy candidate fails the budget check,
`route` still returns a decision drawn from the full healthy candidate set
(it never fails solely due to budget), but the decision's reason code is
the configured strategy's name — never `"budget_exceeded"`. -/
theorem budget_fallback_thm (now : GPT.Date) (elapsed : ℚ)
    (st : GPT.RouterState) (req : GPT.ChatRequest)
    (h1 : (GPT.checkBudgetReset now st).providers.filter
      (fun p => p.available) ≠ [])
    (_h2 : GPT.filterByBudget (GPT.checkBudgetReset now st)
      ((GPT.checkBudgetReset now st).providers.filter
        (fun p => p.available)) = []) :
    (GPT.route now elapsed st req).isSome = true ∧
    ∀ r, GPT.route now elapsed st req = some r →
      r.1.reason = GPT.strategyName st.strategy ∧
      r.1.reason ≠ "budget_exceeded" ∧
      r.1.provider ∈ (st.providers.filter (fun p => p.available)).map
        (fun p => p.name) := by
  refine ⟨route_isSome h1, ?_⟩
  intro r hr
  obtain ⟨p, hmem, hav, hreq⟩ := route_some_spec hr
  refine ⟨?_, ?_, ?_⟩
  · rw [hreq, makeRequest_reason, checkBudgetReset_strategy]
  · rw [hreq, makeRequest_reason, checkBudgetReset_strategy]
    exact strategyName_ne_budget st.strategy
  · rw [hreq, makeRequest_provider]
    exact List.mem_map.mpr ⟨p, List.mem_filter.mpr ⟨hmem, hav⟩, rfl⟩

/-- C2 (witness): the amended theorem's hypotheses are satisfiable — the
all-over-budget state `stC2` yields a decision. -/
theorem budget_fallback_witness :
    (GPT.route dateJan1 200 stC2 reqHi).isSome = true :=
  (budget_fallback_thm dateJan1 200 stC2 reqHi (by decide) (by decide)).1

/-- C3 (counterexample): a request whose `messages` is the empty array is
not rejected: `route` returns a decision (reason `"cheapest"`, provider
`"local"`), contradicting "missing or empty is rejected with
`InvalidRequest`". -/
theorem empty_messages_claim_cx :
    ER.route 0 ER.erBase { messages := some [] } ≠
      Except.error ER.RouteError.invalidRequest ∧
    (ER.route 0 ER.erBase { messages := some [] }).map
      (fun r => (r.1.provider, r.1.reason)) =
      Except.ok ("local", "cheapest") := by decide

/-- C3 (amended): `route` rejects with `InvalidRequest` exactly when the
request's `messages` field is missing (or not an array); an empty messages
array passes the `!messages || !Array.isArray(messages)` check and produces
a routing decision. -/
theorem invalid_request_iff_thm (now : ℚ) (st : ER.State) (req : ER.Request) :
    ER.route now st req = Except.error ER.RouteError.invalidRequest ↔
      req.messages = none := by
  obtain ⟨messages⟩ := req
  cases messages with
  | none =>
    constructor
    · intro _; rfl
    · intro _; rfl
  | some msgs =>
    constructor
    · intro h
      exfalso
      unfold ER.route at h
      simp only [] at h
      split at h
      · exact routeToProvider_ne_invalid _ _ _ _ _ _ h
      · split at h
        · simp at h
        · simp at h
        · exact routeToProvider_ne_invalid _ _ _ _ _ _ h
    · intro h
      exact Option.noConfusion h

/-- C3 (witness): a request with missing `messages` is rejected with
`InvalidRequest`, by the amended theorem. -/
theorem invalid_request_witness :
    ER.route 0 ER.erBase { messages := none } =
      Except.error ER.RouteError.invalidRequest :=
  (invalid_request_iff_thm 0 ER.erBase { messages := none }).mpr rfl

/-- C4 (code bug, evaluation): starting from the fresh default state, after
exactly 3 consecutive failed probes the provider `"local"` is still
`healthy` with a recorded failure count of 3 — the transition fires only on
the 4th failure, because `checkProviderHealth` compares the pre-increment
count against the threshold. A single success then resets the count to 0
and restores `healthy` immediately (that half of the claim is what the code
does). -/
theorem health_threshold_eval_thm :
    ER.statusOf (ER.iterFail "local" 0 3 ER.erBase) "local" =
      some HStatus.healthy ∧
    getEntry? "local" (ER.iterFail "local" 0 3 ER.erBase).failures = some 3 ∧
    ER.statusOf (ER.iterFail "local" 0 4 ER.erBase) "local" =
      some HStatus.unhealthy ∧
    ER.statusOf (ER.checkProviderHealth "local" true 0
      (ER.iterFail "local" 0 4 ER.erBase)) "local" = some HStatus.healthy ∧
    getEntry? "local" (ER.checkProviderHealth "local" true 0
      (ER.iterFail "local" 0 4 ER.erBase)).failures = some 0 := by decide

/-- C5: with strategy `cheapest` and a non-sensitive request, the provider
`selectProvider` returns is a member of the candidate pool and its cost is
less than or equal to every candidate's cost. -/
theorem cheapest_min_cost_thm (registry pool : List GPT.Provider)
    (p : GPT.Provider)
    (h : GPT.selectProvider registry GPT.Strategy.cheapest pool false = some p) :
    p ∈ pool ∧ ∀ q ∈ pool, p.cost ≤ q.cost := by
  have hb : GPT.byStrategy GPT.Strategy.cheapest pool = some p := h
  have hmem : p ∈ pool := byStrategy_mem hb
  have hsorted : (jsSortBy (fun x => x.cost) pool).head? = some p := hb
  exact ⟨hmem, fun q hq => jsSortBy_head_min hsorted q hq⟩

/-- C5 (witness): on the concrete pool `[openai, groq]`, selection returns
`groq` and its cost is minimal. -/
theorem cheapest_min_cost_witness :
    GPT.selectProvider [pOpen] GPT.Strategy.cheapest [pOpen, pCheap] false =
      some pCheap ∧
    pCheap ∈ [pOpen, pCheap] ∧ pCheap.cost ≤ pOpen.cost := by
  refine ⟨by decide, ?_, ?_⟩
  · exact (cheapest_min_cost_thm [pOpen] [pOpen, pCheap] pCheap (by decide)).1
  · exact (cheapest_min_cost_thm [pOpen] [pOpen, pCheap] pCheap (by decide)).2
      pOpen (by decide)

/-- C6: the end-to-end test request
`{messages:[{role:'user', content:'My password is Secret123'}]}` on a
freshly constructed router with strategy `cheapest` and the healthy default
`local` provider is routed to provider `local` with reason
`sensitive_content`. -/
theorem sensitive_e2e_thm :
    (ER.route 0 ER.erBase
      { messages := some [{ role := "user",
                            content := some "My password is Secret123" }] }).map
      (fun r => (r.1.provider, r.1.reason)) =
      Except.ok ("local", "sensitive_content") := by decide

/-- C7 (counterexample): the budget-eligibility filter is not evaluated
against the per-request estimate. For the 2-character request `"hi"`
(1 token) with `dailyBudget = 0.001` and nothing spent, the spec's
per-request filter keeps `openai` (cost `0.000015 ≤ 0.001`), but
`filterByBudget` drops it because it always uses a fixed 500-token
estimate (`0.0075 > 0.001`). -/
theorem budget_estimate_claim_cx :
    GPT.filterByBudget stC7 [pOpen] = [] ∧
    specBudgetFilter stC7 (GPT.estimateTokens reqHi.messages) [pOpen] =
      [pOpen] ∧
    GPT.filterByBudget stC7 [pOpen] ≠
      specBudgetFilter stC7 (GPT.estimateTokens reqHi.messages) [pOpen] := by
  decide

/-- C7 (amended): the estimated cost recorded on a routing decision equals
`costPerThousandTokens * tokenCount / 1000` with `tokenCount` derived from
the request's message content length (about 4 characters per token), for
some registered provider; but the budget-eligibility filter admits a
provider iff `dailySpent + cost * 500 / 1000` fits the daily budget — a
fixed 500-token estimate, not the per-request one. -/
theorem cost_estimate_thm (now : GPT.Date) (elapsed : ℚ)
    (st : GPT.RouterState) (req : GPT.ChatRequest)
    (r : GPT.RoutingInfo × GPT.RouterState)
    (hr : GPT.route now elapsed st req = some r) :
    (∃ p, p ∈ st.providers ∧ r.1.provider = p.name ∧
      r.1.cost = p.cost * (GPT.estimateTokens req.messages : ℚ) / 1000) ∧
    ∀ (ps : List GPT.Provider) (p : GPT.Provider),
      p ∈ GPT.filterByBudget st ps ↔
        p ∈ ps ∧ ∀ b, st.dailyBudget = some b →
          st.dailySpent + p.cost * 500 / 1000 ≤ b := by
  constructor
  · obtain ⟨p, hmem, hav, hreq⟩ := route_some_spec hr
    refine ⟨p, hmem, ?_, ?_⟩
    · rw [hreq, makeRequest_provider]
    · rw [hreq, makeRequest_cost]
  · intro ps p
    constructor
    · intro hp
      have hsplit := List.mem_filter.mp hp
      refine ⟨hsplit.1, ?_⟩
      intro b hb
      have hcond := hsplit.2
      rw [hb] at hcond
      exact of_decide_eq_true hcond
    · intro hand
      refine List.mem_filter.mpr ⟨hand.1, ?_⟩
      cases hb : st.dailyBudget with
      | none => rfl
      | some b => exact decide_eq_true (hand.2 b hb)

/-- C7 (witness): the amended theorem instantiated at the concrete
over-budget state and request `"hi"`. -/
theorem cost_estimate_witness :
    ∃ r, GPT.route dateJan1 200 stC7 reqHi = some r ∧
      ∃ p, p ∈ stC7.providers ∧ r.1.provider = p.name ∧
        r.1.cost = p.cost * (GPT.estimateTokens reqHi.messages : ℚ) / 1000 := by
  have hs : (GPT.route dateJan1 200 stC7 reqHi).isSome = true := by decide
  obtain ⟨r, hr⟩ := Option.isSome_iff_exists.mp hs
  exact ⟨r, hr, (cost_estimate_thm dateJan1 200 stC7 reqHi r hr).1⟩

/-- C8 (code bug, evaluation): `checkBudgetReset` compares `getDate()`
(day of month) only, and checks the month against the already-updated
`lastResetDate`. Jan 15 → Feb 15 is a different wall-clock day but
`dailySpent` is not reset; Jan 31 → Feb 1 is a different month but
`monthlySpent` is not reset. -/
theorem budget_reset_eval_thm :
    (({ day := 15, month := 1, year := 2025 } : GPT.Date) ≠
        stC8a.lastResetDate ∧
      (GPT.checkBudgetReset { day := 15, month := 1, year := 2025 }
        stC8a).dailySpent = 5) ∧
    (({ day := 1, month := 1, year := 2025 } : GPT.Date).month ≠
        stC8b.lastResetDate.month ∧
      (GPT.checkBudgetReset { day := 1, month := 1, year := 2025 }
        stC8b).monthlySpent = 7) := by decide

/-- C9 (counterexample): two calls of `EdgeRouter.getAnalytics` on the same
untouched state at different wall-clock instants return different values —
the summary embeds `uptime = Date.now() - startTime`. -/
theorem analytics_idempotent_claim_cx :
    ER.getAnalytics 0 ER.erBase ≠ ER.getAnalytics 1 ER.erBase := by decide

/-- C9 (amended): with no intervening state mutation, everything the
analytics summary returns is identical across calls except the `uptime`
field, which equals the elapsed wall-clock time since the router started. -/
theorem analytics_core_stable_thm (st : ER.State) (now1 now2 : ℚ) :
    ER.analyticsCore (ER.getAnalytics now1 st) =
      ER.analyticsCore (ER.getAnalytics now2 st) ∧
    (ER.getAnalytics now1 st).uptime = now1 - st.startTime :=
  ⟨rfl, rfl⟩

/-- C10: the sensitivity detector is total and never raises: the empty
message list is classified `false` (in both implementations), a message
whose `content` is missing matches no pattern, and dropping all
content-less messages never changes the classification. -/
theorem detector_total_thm :
    ER.containsSensitive [] = false ∧
    GPT.detectSensitive [] = false ∧
    (∀ role, ER.msgSensitive { role := role, content := none } = false) ∧
    (∀ msgs, ER.containsSensitive msgs =
      ER.containsSensitive (msgs.filter (fun m => m.content.isSome))) :=
  ⟨rfl, rfl, fun _ => msgSensitive_none _ rfl, containsSensitive_filter⟩
